import Mathlib

/-!
Verification development for the hvac-counter-logger repository.

Shallow embedding of the reporting core found in `src/main.py` and
`src/hardware_rp2.py`:
  * `MyRTC` date handling (`set_from_http_date`, `was_seconds_ago`,
    `pydt_tuple_as_iso`, the `_COUCHDB_DATE_RE` regular expression);
  * `HvacState` (`difference_is_reportable`, `as_dict`, property accessors);
  * the reporting loop body of `async_run` (id allocation, posting, the
    `PostHistory` loop variables `last_sent_state` / `last_post_time` /
    `last_post_time_matches`).

Modelling conventions: Python ints are `Nat`/`Int` (all the ints in play are
nonnegative), floats are exact rationals `Rat` (the claims under study only
concern presence/absence and exact threshold comparisons), fallible Python
code returns `Except`, and `None`-able values are `Option`.
-/

namespace Hvac

/-- Python-side date/time tuple, as laid out by
`MyRTC.pydttuple_from_upyrp2040tuple` and by the tuple built in
`MyRTC.set_from_http_date`: indices 0..8 are
(year, mon, day, hour, min, sec, isdst, zone, offset).  Index 5 is the
seconds-within-minute field; index 7 is the timezone string. -/
structure PyDT where
  year : Nat
  mon : Nat
  day : Nat
  hour : Nat
  minute : Nat
  sec : Nat
  isdst : Nat := 0
  zone : String := "GMT"
  offset : Nat := 0
deriving DecidableEq, Repr

/-- RP2040 `machine.RTC` tuple, as laid out by
`MyRTC.upyrp2040tuple_from_pydttuple`: (year, mon, day, dow, hour, min, sec,
subsec).  The source fills the `dow` slot with `p[7]`, and index 7 of the
Python-side tuple is the timezone *string* (the source's own comments label
index 7 "zone"), so the slot is string-valued in every tuple this program
ever builds. -/
structure UpyTuple where
  year : Nat
  mon : Nat
  day : Nat
  dow : String
  hour : Nat
  minute : Nat
  sec : Nat
  subsec : Nat
deriving DecidableEq, Repr

/-- Embedding of `MyRTC.upyrp2040tuple_from_pydttuple` (hardware_rp2.py
lines 53-64): the `dow` slot receives `p[7]`, which is the zone field. -/
def upyrp2040tuple_from_pydttuple (p : PyDT) : UpyTuple :=
  { year := p.year, mon := p.mon, day := p.day, dow := p.zone,
    hour := p.hour, minute := p.minute, sec := p.sec, subsec := 0 }

/-! ### The `_COUCHDB_DATE_RE` regular expression

`_COUCHDB_DATE_RE = r"\s*(\w+),\s+(\d+)\s+(\w+)\s+(\d+)\s+(\d+)\:(\d+)\:(\d+)\s+(\w+)"`
applied with `re.search`.  Every adjacent pair of tokens in this pattern has
disjoint character classes (`\w`/`\s`/`\d` versus the literal `,` and `:`),
so greedy matching never needs to backtrack within a start position; the
search tries successive start positions.  The leading `\s*` can match the
empty string and therefore never affects whether the search succeeds. -/

/-- ASCII `\w` as implemented by MicroPython's re1.5: `[A-Za-z0-9_]`. -/
def isWordChar (c : Char) : Bool :=
  c.isAlpha || c.isDigit || c == '_'

/-- `\d`: `[0-9]`. -/
def isDigitChar (c : Char) : Bool := c.isDigit

/-- `\s`: space, tab, newline, vertical tab, form feed, carriage return. -/
def isSpaceChar (c : Char) : Bool :=
  c == ' ' || c == '\t' || c == '\n' || c == '\x0b' || c == '\x0c' || c == '\r'

/-- Greedy `p+`: consume the maximal nonempty run of characters satisfying
`p`, failing on an empty run. -/
def token (p : Char → Bool) (l : List Char) : Option (List Char × List Char) :=
  let r := l.takeWhile p
  if r.isEmpty then none else some (r, l.dropWhile p)

/-- A literal one-character token. -/
def lit (c : Char) : List Char → Option (List Char)
  | x :: t => if x = c then some t else none
  | [] => none

/-- One token of the regular expression: a greedy nonempty character-class
run (`\w+`, `\s+`, `\d+`) or a literal character. -/
inductive Tok where
  | word
  | space
  | digit
  | litc (c : Char)
deriving DecidableEq, Repr

/-- The character class of a run token. -/
def Tok.cls : Tok → Char → Bool
  | .word => isWordChar
  | .space => isSpaceChar
  | .digit => isDigitChar
  | .litc _ => fun _ => false

/-- `_COUCHDB_DATE_RE` as a token sequence:
`(\w+),\s+(\d+)\s+(\w+)\s+(\d+)\s+(\d+)\:(\d+)\:(\d+)\s+(\w+)`
(the leading `\s*` can match the empty string, so it never affects whether
`re.search` succeeds and is dropped). -/
def datePat : List Tok :=
  [.word, .litc ',', .space, .digit, .space, .word, .space, .digit,
   .space, .digit, .litc ':', .digit, .litc ':', .digit, .space, .word]

/-- Greedy matching of a token sequence at a fixed start position,
returning the consumed run of each class token (in order) and the rest of
the input.  Greedy matching needs no backtracking for `datePat`: every run
token is followed either by a literal outside its class or by a run of a
disjoint class. -/
def matchToks : List Tok → List Char → Option (List (List Char) × List Char)
  | [], l => some ([], l)
  | .litc c :: ts, l =>
    (lit c l).bind fun r => matchToks ts r
  | t :: ts, l =>
    (token t.cls l).bind fun pr =>
      (matchToks ts pr.2).map fun q => (pr.1 :: q.1, q.2)

/-- The eight capture groups of `_COUCHDB_DATE_RE`:
day-of-week, day, month, year, hour, minute, second, timezone. -/
structure DateGroups where
  dow : List Char
  dd : List Char
  mon : List Char
  yr : List Char
  hh : List Char
  mm : List Char
  ss : List Char
  tz : List Char
deriving DecidableEq, Repr

/-- Matching `_COUCHDB_DATE_RE` at a fixed start position: the class runs of
`datePat` are, in order, day-of-week, gap, day, gap, month, gap, year, gap,
hour, minute, second, gap, timezone; the parenthesised groups are the
non-gap runs. -/
def matchFrom (l : List Char) : Option DateGroups :=
  match matchToks datePat l with
  | some ([dow, _, dd, _, mon, _, yr, _, hh, mm, ss, _, tz], _) =>
    some ⟨dow, dd, mon, yr, hh, mm, ss, tz⟩
  | _ => none

/-- `re.search`: try `matchFrom` at each start position, left to right. -/
def re_search : List Char → Option DateGroups
  | [] => matchFrom []
  | c :: t =>
    match matchFrom (c :: t) with
    | some g => some g
    | none => re_search t

/-- Python `int()` on a string of decimal digits. -/
def digitsToNat (l : List Char) : Nat :=
  l.foldl (fun a c => a * 10 + (c.toNat - '0'.toNat)) 0

/-- `MyRTC.MON` (hardware_rp2.py lines 17-30). -/
def MON : List (String × Nat) :=
  [("Jan", 1), ("Feb", 2), ("Mar", 3), ("Apr", 4), ("May", 5), ("Jun", 6),
   ("Jul", 7), ("Aug", 8), ("Sep", 9), ("Oct", 10), ("Nov", 11), ("Dec", 12)]

/-- The two failure modes of the date-parsing part of
`MyRTC.set_from_http_date` (hardware_rp2.py lines 92-113): the spec names
the `RuntimeError` raised when the regex does not match `DateFormatError`,
and the `KeyError` raised by the `MON[g(3)]` lookup `UnknownMonthError`. -/
inductive DateError where
  | DateFormatError
  | UnknownMonthError
deriving DecidableEq, Repr

/-- Embedding of the parsing phase of `MyRTC.set_from_http_date`
(hardware_rp2.py lines 92-113): run `re.search(_COUCHDB_DATE_RE, s)`; on no
match raise (DateFormatError); otherwise build the Python-side tuple, where
the `MON[g(3)]` month lookup can raise (UnknownMonthError). -/
def parse_http_date (s : String) : Except DateError PyDT :=
  match re_search s.data with
  | none => .error .DateFormatError
  | some g =>
    match MON.lookup (String.mk g.mon) with
    | none => .error .UnknownMonthError
    | some m =>
      .ok { year := digitsToNat g.yr, mon := m, day := digitsToNat g.dd,
            hour := digitsToNat g.hh, minute := digitsToNat g.mm,
            sec := digitsToNat g.ss, isdst := 0, zone := String.mk g.tz,
            offset := 0 }

example : parse_http_date "Fri, 12 Jan 2024 20:51:40 GMT" =
    .ok ⟨2024, 1, 12, 20, 51, 40, 0, "GMT", 0⟩ := rfl

example : parse_http_date "Fri, 12 Xyz 2024 20:51:40 GMT" =
    .error .UnknownMonthError := rfl

example : parse_http_date "nonsense" = .error .DateFormatError := rfl

/-! ### Declarative reading of the date pattern

`TokMatches`/`ShapeFrom` state what it means for a string to match the
token sequence, independently of the greedy matcher; the theorems for C8
prove the two readings agree. -/

/-- A segment of input matching one token: the literal character itself, or
a nonempty run inside the token's character class. -/
def TokMatches (t : Tok) (seg : List Char) : Prop :=
  match t with
  | .litc c => seg = [c]
  | _ => seg ≠ [] ∧ ∀ c ∈ seg, t.cls c = true

/-- The input starts with segments matching the token sequence in order;
anything may follow. -/
def ShapeFrom : List Tok → List Char → Prop
  | [], _ => True
  | t :: ts, l => ∃ seg rest, l = seg ++ rest ∧ TokMatches t seg ∧ ShapeFrom ts rest

/-- The claim's "the input matches the pattern": some position of the
string starts a match of `_COUCHDB_DATE_RE` (as with `re.search`, text may
precede and follow). -/
def MatchesHttpDate (s : String) : Prop :=
  ∃ pre rest, s.data = pre ++ rest ∧ ShapeFrom datePat rest

/-- The characters that can begin a match of a token. -/
def clsHead : Tok → Char → Bool
  | .litc c => fun x => x == c
  | t => t.cls

/-- No character beginning a match of `t2` lies in the run class of `t1`:
the condition under which greedy matching of `t1` cannot eat into `t2`'s
segment. -/
def pairOK (t1 t2 : Tok) : Prop :=
  ∀ c, clsHead t2 c = true → t1.cls c = false

/-- `pairOK` for every adjacent pair of the token sequence. -/
def chainOK : List Tok → Prop
  | t1 :: t2 :: ts => pairOK t1 t2 ∧ chainOK (t2 :: ts)
  | _ => True

/-- Number of class-run tokens (= captured runs of `matchToks`). -/
def numRuns : List Tok → Nat
  | [] => 0
  | .litc _ :: ts => numRuns ts
  | _ :: ts => numRuns ts + 1

/-! ### Clock arithmetic (`time.mktime`, `time.strftime`, `was_seconds_ago`,
`set_from_http_date`) -/

/-- Days of the proleptic Gregorian calendar before the given civil date,
counted from 0000-03-01 (Howard Hinnant's `days_from_civil`, restricted to
the nonnegative years this program handles).  Used to embed the library
function `time.mktime`. -/
def days_from_civil (y m d : Nat) : Nat :=
  let y2 := if m ≤ 2 then y - 1 else y
  let era := y2 / 400
  let yoe := y2 % 400
  let mp := (m + 9) % 12
  let doy := (153 * mp + 2) / 5 + (d - 1)
  let doe := yoe * 365 + yoe / 4 - yoe / 100 + doy
  era * 146097 + doe

/-- Embedding of `time.mktime` on the Python-side tuple: seconds of the
calendar timestamp (fields year/mon/day/hour/min/sec; the epoch offset is
irrelevant because the program only ever uses differences of `mktime`
values). -/
def mktime (t : PyDT) : Int :=
  ((days_from_civil t.year t.mon t.day * 86400
      + t.hour * 3600 + t.minute * 60 + t.sec : Nat) : Int)

/-- Embedding of `MyRTC.was_seconds_ago` (hardware_rp2.py lines 70-74):
`time.mktime(newer) - time.mktime(older) >= seconds`. -/
def was_seconds_ago (newer older : PyDT) (seconds : Int) : Bool :=
  mktime newer - mktime older ≥ seconds

/-- Decimal rendering of `n`, zero-padded on the left to width `w`
(strftime's `%Y` with w=4, `%d`/`%H`/`%M`/`%S` with w=2). -/
def padZeros (w : Nat) (n : Nat) : String :=
  let s := toString n
  String.mk (List.replicate (w - s.length) '0') ++ s

/-- strftime's `%b`: abbreviated English month names, indexed by month-1. -/
def monthAbbr : List String :=
  ["Jan", "Feb", "Mar", "Apr", "May", "Jun",
   "Jul", "Aug", "Sep", "Oct", "Nov", "Dec"]

/-- Embedding of `MyRTC.pydt_tuple_as_iso` (hardware_rp2.py lines 76-78):
`time.strftime("%Y-%b-%dT%H:%M:%S", t)`. -/
def pydt_tuple_as_iso (t : PyDT) : String :=
  padZeros 4 t.year ++ "-" ++ monthAbbr.getD (t.mon - 1) "" ++ "-"
    ++ padZeros 2 t.day ++ "T" ++ padZeros 2 t.hour ++ ":"
    ++ padZeros 2 t.minute ++ ":" ++ padZeros 2 t.sec

example : pydt_tuple_as_iso ⟨2024, 1, 12, 20, 51, 40, 0, "GMT", 0⟩ =
    "2024-Jan-12T20:51:40" := rfl

/-- Embedding of `MyRTC.set_from_http_date` (hardware_rp2.py lines 87-126):
parse the header (lines 92-113, see `parse_http_date`), then rewrite the
hardware clock when `pydt_tuple_now[0] < 2024 or
abs(pydt_tuple_parsed[5] - pydt_tuple_now[5]) > 2`; index 0 is the year and
index 5 is the seconds-within-minute field.  The result is `some u` when
the RTC write `self._rtc.datetime(u)` is attempted with tuple `u`, and
`none` when the hardware clock is left unchanged. -/
def set_from_http_date (rtc_now : PyDT) (http_date : String) :
    Except DateError (Option UpyTuple) :=
  match parse_http_date http_date with
  | .error e => .error e
  | .ok p =>
    if rtc_now.year < 2024 ∨ ((p.sec : Int) - (rtc_now.sec : Int)).natAbs > 2 then
      .ok (some (upyrp2040tuple_from_pydttuple p))
    else
      .ok none

/-- Modelled from the spec (ClockSynchronizer, `should_resync`): the
"second of day" of a clock estimate, `hour*3600 + minute*60 + second`.
This definition follows the spec's words and exists to compare the spec's
resync condition with the source's; the source itself compares only the
seconds-within-minute fields (tuple index 5). -/
def spec_second_of_day (t : PyDT) : Nat :=
  t.hour * 3600 + t.minute * 60 + t.sec

/-! ### `HvacState` (main.py lines 45-211) -/

/-- The backing fields of `HvacState` as set by `__init__` (main.py lines
58-64): `_digitals`, `_ambientTempC`, `_outdoorTempC`, `_dischargeTempC`,
`_returnTempC`, each `None` until sampled.  Temperatures are modelled as
exact rationals. -/
structure HvacState where
  digitals : Option Nat
  ambientTempC : Option Rat
  outdoorTempC : Option Rat
  dischargeTempC : Option Rat
  returnTempC : Option Rat
deriving DecidableEq, Repr

/-- Python runtime errors that the embedded fragments of `async_run` and
`HvacState` can raise. -/
inductive PyErr where
  | typeErrorNoneSub
  | typeErrorTupleConcat
  | typeErrorMktimeNone
  | reportRejected (status : Nat)
deriving DecidableEq, Repr

/-- One temperature branch of `HvacState.difference_is_reportable`
(main.py lines 114-121): `if other._x is not None and
abs(self._x - other._x) > thr: return True`.  When `other._x` is set but
`self._x` is `None`, the subtraction `None - float` raises a `TypeError`. -/
def tempDelta (selfF otherF : Option Rat) (thr : Rat) : Except PyErr Bool :=
  match otherF with
  | none => .ok false
  | some b =>
    match selfF with
    | none => .error .typeErrorNoneSub
    | some a => .ok (decide (|a - b| > thr))

/-- Embedding of `HvacState.difference_is_reportable` (main.py lines
105-122); `self` is the freshly sampled state and `other` the previous one
(`last_sent_state`, possibly `None`).  Thresholds: ambient 2, outdoor /
discharge / return 1. -/
def difference_is_reportable (self : HvacState) (other : Option HvacState) :
    Except PyErr Bool :=
  match other with
  | none => .ok true
  | some o =>
    if self.digitals ≠ o.digitals then .ok true
    else
      (tempDelta self.ambientTempC o.ambientTempC 2).bind fun b1 =>
      if b1 then .ok true
      else
        (tempDelta self.outdoorTempC o.outdoorTempC 1).bind fun b2 =>
        if b2 then .ok true
        else
          (tempDelta self.dischargeTempC o.dischargeTempC 1).bind fun b3 =>
          if b3 then .ok true
          else
            (tempDelta self.returnTempC o.returnTempC 1).bind fun b4 =>
            if b4 then .ok true else .ok false

/-- Whether one temperature branch fires without error: both sides present
and differing by more than the threshold. -/
def fires (selfF otherF : Option Rat) (thr : Rat) : Bool :=
  match otherF, selfF with
  | some b, some a => decide (|a - b| > thr)
  | _, _ => false

/-- Every temperature present in the previous snapshot is also present in
the current one (the condition under which the change detector cannot hit
the `None - float` TypeError). -/
def temps_present_compat (self o : HvacState) : Prop :=
  (o.ambientTempC.isSome = true → self.ambientTempC.isSome = true) ∧
  (o.outdoorTempC.isSome = true → self.outdoorTempC.isSome = true) ∧
  (o.dischargeTempC.isSome = true → self.dischargeTempC.isSome = true) ∧
  (o.returnTempC.isSome = true → self.returnTempC.isSome = true)

instance (self o : HvacState) : Decidable (temps_present_compat self o) := by
  unfold temps_present_compat; infer_instance

/-- The `ambientTempC` property getter (main.py lines 134-138).  Its body
tests and returns `self._ambientTemp` — an attribute that no code ever
assigns: `__init__` initialises `_ambientTempC` and the setter (lines
140-142) also writes `_ambientTempC`.  Reading the missing attribute raises
`AttributeError` unconditionally. -/
def ambientTempC_get (_st : HvacState) : Except String Rat :=
  .error "AttributeError: no attribute _ambientTemp"

/-- JSON-able values appearing in the report document. -/
inductive JVal where
  | jint (n : Nat)
  | jbool (b : Bool)
  | jnum (q : Rat)
deriving DecidableEq, Repr

/-- Embedding of `HvacState.as_dict` (main.py lines 69-103) as an ordered
key/value list.  The first `try` block reads the `digitals` property —
which raises `RuntimeError` when unsampled, caught by `except Exception`,
leaving `retval = {}` — and the nine bit flags read via
`_get_digitals_bit_truth` (lines 174-211).  Each temperature is then added
under its own bare `try/except: pass`: the ambient getter always raises
(see `ambientTempC_get`), the other getters raise exactly when their
backing field is `None`. -/
def as_dict (st : HvacState) : List (String × JVal) :=
  (match st.digitals with
   | none => []
   | some d =>
     [("digitals", .jint d), ("heat", .jbool (d.testBit 0)),
      ("cool", .jbool (d.testBit 1)), ("fan", .jbool (d.testBit 2)),
      ("purge", .jbool (d.testBit 3)), ("emergency", .jbool (d.testBit 4)),
      ("zone1", .jbool (d.testBit 5)), ("zone2", .jbool (d.testBit 6)),
      ("zone3", .jbool (d.testBit 7)), ("zone4", .jbool (d.testBit 8))])
  ++ (match ambientTempC_get st with
      | .error _ => []
      | .ok v => [("ambientTempC", .jnum v)])
  ++ (match st.outdoorTempC with
      | none => []
      | some v => [("outdoorTempC", .jnum v)])
  ++ (match st.dischargeTempC with
      | none => []
      | some v => [("dischargeTempC", .jnum v)])
  ++ (match st.returnTempC with
      | none => []
      | some v => [("returnTempC", .jnum v)])

/-! ### The reporting loop of `async_run` (main.py lines 314-351) -/

/-- The loop variables of `async_run` (main.py lines 314-316):
`last_sent_state`, `last_post_time`, `last_post_time_matches` — the spec's
PostHistory. -/
structure PostHistory where
  last_sent_state : Option HvacState
  last_post_time : Option PyDT
  last_post_time_matches : Nat
deriving DecidableEq, Repr

/-- The loop state before the first iteration (main.py lines 314-316). -/
def initial_history : PostHistory :=
  { last_sent_state := none, last_post_time := none, last_post_time_matches := 0 }

/-- Embedding of the id-allocation fragment of `async_run` (main.py lines
330-337).  `post_time = pydt_now`; when it equals `last_post_time` the code
increments `last_post_time_matches` and then executes
`post_time += f".{last_post_time_matches}"` — but `post_time` is a time
*tuple*, and concatenating a `str` to a tuple raises `TypeError`, so the
collision branch never produces an id.  Otherwise `last_post_time` is set
to `post_time`, the counter resets to 0 and the id is
`rtc.pydt_tuple_as_iso(post_time)`. -/
def allocate_id (pydt_now : PyDT) (h : PostHistory) :
    PostHistory × Except PyErr String :=
  if some pydt_now = h.last_post_time then
    ({ h with last_post_time_matches := h.last_post_time_matches + 1 },
     .error .typeErrorTupleConcat)
  else
    ({ h with last_post_time := some pydt_now, last_post_time_matches := 0 },
     .ok (pydt_tuple_as_iso pydt_now))

/-- Embedding of the reporting condition of `async_run` (main.py lines
324-327): `state.difference_is_reportable(last_sent_state) or
rtc.was_seconds_ago(pydt_now, last_post_time, 3600)`.  Python's `or`
short-circuits, so `was_seconds_ago` is evaluated only when the first
disjunct is `False`; calling it with `last_post_time = None` would raise a
`TypeError` inside `time.mktime(None)`. -/
def report_guard (st : HvacState) (pydt_now : PyDT) (h : PostHistory) :
    Except PyErr Bool :=
  match difference_is_reportable st h.last_sent_state with
  | .error e => .error e
  | .ok true => .ok true
  | .ok false =>
    match h.last_post_time with
    | none => .error .typeErrorMktimeNone
    | some lpt => .ok (was_seconds_ago pydt_now lpt 3600)

/-- Embedding of the posting branch of `async_run` (main.py lines 328-349),
entered when `report_guard` yields `true`: line 328 sets
`last_sent_state = state` *before* the POST; lines 330-337 allocate the id
(see `allocate_id`); lines 339-346 issue the POST and raise `RuntimeError`
when the response status is neither 200 nor 201.  `Sum.inl (e, h)` means
the iteration raised `e` with the loop variables holding `h` at that
moment; `Sum.inr h` is a completed iteration.  (The clock resync and LED
blink of lines 347-349 do not touch the loop variables.) -/
def loop_post_step (st : HvacState) (pydt_now : PyDT) (status : Nat)
    (h : PostHistory) : Sum (PyErr × PostHistory) PostHistory :=
  let h1 := { h with last_sent_state := some st }
  let ar := allocate_id pydt_now h1
  match ar.2 with
  | .error e => .inl (e, ar.1)
  | .ok _id =>
    if status ≠ 200 ∧ status ≠ 201 then .inl (.reportRejected status, ar.1)
    else .inr ar.1

/-- One full iteration of the `while True` loop of `async_run` (main.py
lines 317-351) given the sampled state, the clock reading and the POST
response status the transport would return. -/
def loop_step (st : HvacState) (pydt_now : PyDT) (status : Nat)
    (h : PostHistory) : Sum (PyErr × PostHistory) PostHistory :=
  match report_guard st pydt_now h with
  | .error e => .inl (e, h)
  | .ok false => .inr h
  | .ok true => loop_post_step st pydt_now status h

/-- The external inputs consumed by one loop iteration. -/
structure LoopInput where
  st : HvacState
  now : PyDT
  status : Nat

/-- Run the loop over a list of per-iteration inputs, stopping at the first
raised error. -/
def loop_run : List LoopInput → PostHistory → Sum (PyErr × PostHistory) PostHistory
  | [], h => .inr h
  | i :: rest, h =>
    match loop_step i.st i.now i.status h with
    | .inl e => .inl e
    | .inr h2 => loop_run rest h2

/-- The loop-state invariant of claim C10: `last_post_time` is `None`
exactly when `last_sent_state` is `None`. -/
def history_inv (h : PostHistory) : Prop :=
  h.last_post_time = none ↔ h.last_sent_state = none

/-! ### Concrete values used by several claims -/

/-- The clock reading 2024-01-12 20:51:40 GMT. -/
def jan12t : PyDT := ⟨2024, 1, 12, 20, 51, 40, 0, "GMT", 0⟩

/-- The same clock reading one second later. -/
def jan12t1 : PyDT := ⟨2024, 1, 12, 20, 51, 41, 0, "GMT", 0⟩

/-! ### Claims -/

/-- C1: the spec says two consecutive allocations with the same base
timestamp yield the bare id `"2024-Jan-12T20:51:40"` and then
`"2024-Jan-12T20:51:40.1"`.  The code produces the bare id the first time,
but the second allocation raises `TypeError` (string concatenated to the
time tuple at main.py line 333) instead of producing the suffixed id. -/
theorem C1_second_allocation_same_second_raises :
    (allocate_id jan12t initial_history).2 = .ok "2024-Jan-12T20:51:40" ∧
    (allocate_id jan12t (allocate_id jan12t initial_history).1).2 =
      .error .typeErrorTupleConcat :=
  ⟨rfl, rfl⟩

/-- C3: the spec guarantees strictly increasing ids even when two reports
fall in the same clock second; in the code, after a first id is allocated
at 2024-01-12 20:51:40, a second allocation at the same second produces no
id string at all (the collision branch raises before building one), so the
guaranteed same-second ordered pair of ids cannot exist. -/
theorem C3_same_second_pair_of_ids_impossible :
    (allocate_id jan12t initial_history).2 = .ok "2024-Jan-12T20:51:40" ∧
    ∀ s : String,
      (allocate_id jan12t (allocate_id jan12t initial_history).1).2 ≠ .ok s := by
  refine ⟨rfl, ?_⟩
  intro s h
  have hE : (allocate_id jan12t (allocate_id jan12t initial_history).1).2 =
      Except.error PyErr.typeErrorTupleConcat := rfl
  rw [hE] at h
  exact Except.noConfusion h

/-- C3, witness: in particular the id the spec promises for the second
same-second report, `"2024-Jan-12T20:51:40.1"`, is not produced. -/
theorem C3_same_second_pair_witness :
    (allocate_id jan12t (allocate_id jan12t initial_history).1).2 ≠
      .ok "2024-Jan-12T20:51:40.1" :=
  C3_same_second_pair_of_ids_impossible.2 "2024-Jan-12T20:51:40.1"

/-- C2 counterexample: with the device clock at 2024-01-12 11:51:40 and the
server date 2024-01-12 12:51:40, the second-of-day difference is 3600 > 2
and the claim requires a rewrite of the clock, yet the code leaves the
hardware clock unchanged (it compares only the seconds-within-minute
fields, 40 and 40). -/
theorem C2_second_of_day_counterexample :
    parse_http_date "Fri, 12 Jan 2024 12:51:40 GMT" =
      .ok ⟨2024, 1, 12, 12, 51, 40, 0, "GMT", 0⟩ ∧
    ((spec_second_of_day ⟨2024, 1, 12, 12, 51, 40, 0, "GMT", 0⟩ : Int) -
      (spec_second_of_day ⟨2024, 1, 12, 11, 51, 40, 0, "GMT", 0⟩ : Int)).natAbs > 2 ∧
    ¬ (⟨2024, 1, 12, 11, 51, 40, 0, "GMT", 0⟩ : PyDT).year < 2024 ∧
    set_from_http_date ⟨2024, 1, 12, 11, 51, 40, 0, "GMT", 0⟩
      "Fri, 12 Jan 2024 12:51:40 GMT" = .ok none :=
  ⟨rfl, by decide, by decide, rfl⟩

/-- C2 amended: the hardware clock is rewritten to the parsed server time
exactly when `current.year < 2024` or the absolute difference of the
*seconds-within-minute* fields (tuple index 5) of the parsed and current
times exceeds 2; otherwise it is left unchanged. -/
theorem C2_amended_resync_condition (now : PyDT) (s : String) (p : PyDT)
    (hp : parse_http_date s = .ok p) :
    (set_from_http_date now s = .ok (some (upyrp2040tuple_from_pydttuple p)) ↔
      (now.year < 2024 ∨ ((p.sec : Int) - (now.sec : Int)).natAbs > 2)) ∧
    (set_from_http_date now s = .ok none ↔
      ¬ (now.year < 2024 ∨ ((p.sec : Int) - (now.sec : Int)).natAbs > 2)) := by
  unfold set_from_http_date
  rw [hp]
  by_cases hc : now.year < 2024 ∨ ((p.sec : Int) - (now.sec : Int)).natAbs > 2
  · simp [hc]
  · simp [hc]

/-- C2 amended, witness: a boot-default clock (year 2020) is rewritten from
`"Fri, 12 Jan 2024 20:51:40 GMT"`. -/
theorem C2_amended_resync_condition_witness :
    set_from_http_date ⟨2020, 1, 1, 0, 0, 0, 0, "GMT", 0⟩
      "Fri, 12 Jan 2024 20:51:40 GMT" =
      .ok (some ⟨2024, 1, 12, "GMT", 20, 51, 40, 0⟩) :=
  ((C2_amended_resync_condition ⟨2020, 1, 1, 0, 0, 0, 0, "GMT", 0⟩
      "Fri, 12 Jan 2024 20:51:40 GMT" ⟨2024, 1, 12, 20, 51, 40, 0, "GMT", 0⟩
      rfl).1).mpr (Or.inl (by decide))

/-- C4 counterexample: the claim says the change detector is total over all
presence/absence combinations; but when the outdoor temperature is present
in the previous snapshot and absent in the current one, the comparison
`abs(self._outdoorTempC - other._outdoorTempC)` subtracts a float from
`None` and raises `TypeError`. -/
theorem C4_totality_counterexample :
    difference_is_reportable ⟨some 0, none, none, none, none⟩
      (some ⟨some 0, none, some 10, none, none⟩) = .error .typeErrorNoneSub := rfl

/-- C5 counterexample: equal digitals, every temperature present in *both*
snapshots within threshold (vacuously: none is present in both), elapsed
time 0 < 3600 — the claim requires `false`, but the code raises `TypeError`
because the ambient temperature is present only in the previous
snapshot. -/
theorem C5_within_threshold_counterexample :
    (⟨some 0, none, none, none, none⟩ : HvacState).digitals =
      (⟨some 0, some 20, none, none, none⟩ : HvacState).digitals ∧
    fires (⟨some 0, none, none, none, none⟩ : HvacState).ambientTempC
      (⟨some 0, some 20, none, none, none⟩ : HvacState).ambientTempC 2 = false ∧
    fires (⟨some 0, none, none, none, none⟩ : HvacState).outdoorTempC
      (⟨some 0, some 20, none, none, none⟩ : HvacState).outdoorTempC 1 = false ∧
    fires (⟨some 0, none, none, none, none⟩ : HvacState).dischargeTempC
      (⟨some 0, some 20, none, none, none⟩ : HvacState).dischargeTempC 1 = false ∧
    fires (⟨some 0, none, none, none, none⟩ : HvacState).returnTempC
      (⟨some 0, some 20, none, none, none⟩ : HvacState).returnTempC 1 = false ∧
    mktime jan12t - mktime jan12t < 3600 ∧
    report_guard ⟨some 0, none, none, none, none⟩ jan12t
      ⟨some ⟨some 0, some 20, none, none, none⟩, some jan12t, 0⟩ =
      .error .typeErrorNoneSub :=
  ⟨rfl, rfl, rfl, rfl, rfl, by decide, rfl⟩

/-- A temperature branch of the change detector evaluates without error to
`fires` whenever a previous-present field is also current-present. -/
theorem tempDelta_eq_fires (a b : Option Rat) (thr : Rat)
    (h : b.isSome = true → a.isSome = true) :
    tempDelta a b thr = .ok (fires a b thr) := by
  rcases b with _ | bv
  · rfl
  · rcases a with _ | av
    · exact absurd (h rfl) (by simp)
    · rfl

/-- Characterisation of the change detector on presence-compatible
snapshots: it returns, without error, the disjunction of the digitals
comparison and the four present-to-present temperature deltas. -/
theorem diff_reportable_eq (self o : HvacState)
    (hc : temps_present_compat self o) :
    difference_is_reportable self (some o) =
      .ok (decide (self.digitals ≠ o.digitals) ||
        fires self.ambientTempC o.ambientTempC 2 ||
        fires self.outdoorTempC o.outdoorTempC 1 ||
        fires self.dischargeTempC o.dischargeTempC 1 ||
        fires self.returnTempC o.returnTempC 1) := by
  obtain ⟨h1, h2, h3, h4⟩ := hc
  by_cases hd : self.digitals ≠ o.digitals
  · simp [difference_is_reportable, hd]
  · simp only [difference_is_reportable, if_neg hd,
      tempDelta_eq_fires _ _ _ h1, tempDelta_eq_fires _ _ _ h2,
      tempDelta_eq_fires _ _ _ h3, tempDelta_eq_fires _ _ _ h4,
      decide_eq_false hd, Bool.false_or]
    cases hf1 : fires self.ambientTempC o.ambientTempC 2 <;>
      cases hf2 : fires self.outdoorTempC o.outdoorTempC 1 <;>
      cases hf3 : fires self.dischargeTempC o.dischargeTempC 1 <;>
      cases hf4 : fires self.returnTempC o.returnTempC 1 <;> rfl

/-- C4 amended: the change detector is total — returning a boolean, never
raising — for every combination of presence/absence in which each
temperature present in the previous snapshot is also present in the
current one; its value is the disjunction of the digitals change and the
present-to-present deltas, so a field absent in either snapshot never
makes a temperature branch fire.  (Without the presence condition the code
raises `TypeError`, see the counterexample.) -/
theorem C4_amended_detector_total_when_presence_compatible
    (self o : HvacState) (hc : temps_present_compat self o) :
    difference_is_reportable self (some o) =
      .ok (decide (self.digitals ≠ o.digitals) ||
        fires self.ambientTempC o.ambientTempC 2 ||
        fires self.outdoorTempC o.outdoorTempC 1 ||
        fires self.dischargeTempC o.dischargeTempC 1 ||
        fires self.returnTempC o.returnTempC 1) :=
  diff_reportable_eq self o hc

/-- C4 amended, witness: a presence-compatible pair with changed digitals
evaluates without error. -/
theorem C4_amended_detector_total_witness :
    difference_is_reportable ⟨some 1, some 5, some 5, none, none⟩
      (some ⟨some 0, some 1, none, none, none⟩) = .ok true := by
  rw [C4_amended_detector_total_when_presence_compatible
    ⟨some 1, some 5, some 5, none, none⟩ ⟨some 0, some 1, none, none, none⟩
    (by decide)]
  rfl

/-- C5 amended: with equal digitals, every temperature present in the
previous snapshot also present in the current one and within its
threshold, and elapsed time below 3600 s, the reporting condition is
`false`.  (The presence-compatibility hypothesis is necessary: without it
the code raises instead of returning `false`, see the counterexample.) -/
theorem C5_amended_within_threshold_not_reportable
    (cur prev : HvacState) (now lpt : PyDT) (k : Nat)
    (hd : cur.digitals = prev.digitals)
    (hc : temps_present_compat cur prev)
    (f1 : fires cur.ambientTempC prev.ambientTempC 2 = false)
    (f2 : fires cur.outdoorTempC prev.outdoorTempC 1 = false)
    (f3 : fires cur.dischargeTempC prev.dischargeTempC 1 = false)
    (f4 : fires cur.returnTempC prev.returnTempC 1 = false)
    (he : mktime now - mktime lpt < 3600) :
    report_guard cur now ⟨some prev, some lpt, k⟩ = .ok false := by
  have hdiff := diff_reportable_eq cur prev hc
  rw [decide_eq_false (by simp [hd]), f1, f2, f3, f4] at hdiff
  simp only [Bool.false_or] at hdiff
  simp [report_guard, hdiff, was_seconds_ago, not_le.mpr he]

/-- C5 amended, witness: all deltas within threshold one second after the
previous report. -/
theorem C5_amended_within_threshold_witness :
    report_guard ⟨some 0, some 20, some 10, some 10, some 10⟩ jan12t1
      ⟨some ⟨some 0, some 21, some (21/2), some 10, some 10⟩, some jan12t, 5⟩ =
      .ok false :=
  C5_amended_within_threshold_not_reportable
    ⟨some 0, some 20, some 10, some 10, some 10⟩
    ⟨some 0, some 21, some (21/2), some 10, some 10⟩ jan12t1 jan12t 5
    rfl (by decide) (by norm_num [fires, abs_le]) (by norm_num [fires, abs_le])
    (by norm_num [fires, abs_le]) (by norm_num [fires, abs_le]) (by decide)

/-- The change detector never reports a snapshot against itself. -/
theorem diff_self_not_reportable (st : HvacState) :
    difference_is_reportable st (some st) = .ok false := by
  have hf : ∀ (x : Option Rat) (thr : Rat), 0 ≤ thr → fires x x thr = false := by
    intro x thr ht
    rcases x with _ | v
    · rfl
    · simp [fires, sub_self, abs_zero, not_lt.mpr ht]
  rw [diff_reportable_eq st st ⟨fun h => h, fun h => h, fun h => h, fun h => h⟩,
    decide_eq_false (by simp), hf st.ambientTempC 2 (by norm_num),
    hf st.outdoorTempC 1 (by norm_num), hf st.dischargeTempC 1 (by norm_num),
    hf st.returnTempC 1 (by norm_num)]
  rfl

/-- C7: the heartbeat fires exactly at 3600 elapsed seconds — with an
unchanged snapshot, the reporting condition is `true` when
`mktime(now) - mktime(last_post_time) = 3600` and `false` at 3599. -/
theorem C7_heartbeat_exact_threshold (prev : HvacState) (now lpt : PyDT)
    (k : Nat) :
    (mktime now - mktime lpt = 3600 →
      report_guard prev now ⟨some prev, some lpt, k⟩ = .ok true) ∧
    (mktime now - mktime lpt = 3599 →
      report_guard prev now ⟨some prev, some lpt, k⟩ = .ok false) := by
  constructor
  · intro h
    simp [report_guard, diff_self_not_reportable, was_seconds_ago, h]
  · intro h
    simp [report_guard, diff_self_not_reportable, was_seconds_ago, h]

/-- C7, witness: concrete clock readings exactly 3600 and 3599 seconds
after a report at 2024-01-12 20:51:40. -/
theorem C7_heartbeat_witness :
    report_guard ⟨some 0, none, none, none, none⟩
      ⟨2024, 1, 12, 21, 51, 40, 0, "GMT", 0⟩
      ⟨some ⟨some 0, none, none, none, none⟩, some jan12t, 0⟩ = .ok true ∧
    report_guard ⟨some 0, none, none, none, none⟩
      ⟨2024, 1, 12, 21, 51, 39, 0, "GMT", 0⟩
      ⟨some ⟨some 0, none, none, none, none⟩, some jan12t, 0⟩ = .ok false :=
  ⟨(C7_heartbeat_exact_threshold ⟨some 0, none, none, none, none⟩
      ⟨2024, 1, 12, 21, 51, 40, 0, "GMT", 0⟩ jan12t 0).1 (by decide),
   (C7_heartbeat_exact_threshold ⟨some 0, none, none, none, none⟩
      ⟨2024, 1, 12, 21, 51, 39, 0, "GMT", 0⟩ jan12t 0).2 (by decide)⟩

/-- C6: a snapshot whose ambient temperature *was* sampled still produces a
report document without the `"ambientTempC"` key — for every snapshot, the
key is absent, because the `ambientTempC` property reads the never-assigned
attribute `_ambientTemp` (main.py line 136), raising `AttributeError`,
which `as_dict` swallows with a bare `except: pass`. -/
theorem C6_ambient_key_never_in_document (st : HvacState) :
    "ambientTempC" ∉ (as_dict st).map Prod.fst := by
  rcases st with ⟨d, a, o, di, r⟩
  cases d <;> cases o <;> cases di <;> cases r <;>
    simp [as_dict, ambientTempC_get]

/-- C6, witness: a snapshot with ambient sampled at 21.5 °C (and digitals
and outdoor sampled) still omits the key. -/
theorem C6_ambient_key_witness :
    "ambientTempC" ∉
      (as_dict ⟨some 5, some (43/2 : Rat), some 7, none, none⟩).map Prod.fst :=
  C6_ambient_key_never_in_document ⟨some 5, some (43/2 : Rat), some 7, none, none⟩

/-- C9 counterexample: a POST attempt that fails with status 500 leaves the
loop with `last_sent_state` already holding the snapshot of the *failed*
attempt (digitals 3), not the snapshot from before the attempt
(digitals 1): line 328 of main.py assigns `last_sent_state = state` before
the POST is issued. -/
theorem C9_stale_snapshot_counterexample :
    loop_post_step ⟨some 3, none, none, none, none⟩ jan12t1 500
      ⟨some ⟨some 1, none, none, none, none⟩, some jan12t, 0⟩ =
      .inl (.reportRejected 500,
        ⟨some ⟨some 3, none, none, none, none⟩, some jan12t1, 0⟩) ∧
    (⟨some 3, none, none, none, none⟩ : HvacState) ≠
      ⟨some 1, none, none, none, none⟩ :=
  ⟨rfl, by decide⟩

/-- The only error a temperature branch can raise is the `None - float`
TypeError. -/
theorem tempDelta_error_eq (a b : Option Rat) (thr : Rat) (e : PyErr)
    (h : tempDelta a b thr = .error e) : e = .typeErrorNoneSub := by
  rcases b with _ | bv
  · simp [tempDelta] at h
  · rcases a with _ | av
    · simp [tempDelta] at h
      exact h.symm
    · simp [tempDelta] at h

/-- Case split for a failing `Except.bind` over the detector's branches. -/
theorem except_bind_error_cases (x : Except PyErr Bool)
    (f : Bool → Except PyErr Bool) (e : PyErr) (h : x.bind f = .error e) :
    x = .error e ∨ ∃ b, x = .ok b ∧ f b = .error e := by
  rcases x with e2 | b
  · left
    simp only [Except.bind] at h
    exact h
  · right
    exact ⟨b, rfl, by simpa [Except.bind] using h⟩

/-- The only error the change detector can raise is the `None - float`
TypeError (so the `time.mktime(None)` TypeError can only come from the
heartbeat disjunct). -/
theorem diff_error_eq (st : HvacState) (o : Option HvacState) (e : PyErr)
    (h : difference_is_reportable st o = .error e) : e = .typeErrorNoneSub := by
  rcases o with _ | o
  · simp [difference_is_reportable] at h
  · by_cases hd : st.digitals ≠ o.digitals
    · simp [difference_is_reportable, hd] at h
    · simp only [difference_is_reportable, if_neg hd] at h
      rcases except_bind_error_cases _ _ _ h with h1 | ⟨b1, _, h⟩
      · exact tempDelta_error_eq _ _ _ _ h1
      · cases b1
        · simp only [Bool.false_eq_true, if_false] at h
          rcases except_bind_error_cases _ _ _ h with h2 | ⟨b2, _, h⟩
          · exact tempDelta_error_eq _ _ _ _ h2
          · cases b2
            · simp only [Bool.false_eq_true, if_false] at h
              rcases except_bind_error_cases _ _ _ h with h3 | ⟨b3, _, h⟩
              · exact tempDelta_error_eq _ _ _ _ h3
              · cases b3
                · simp only [Bool.false_eq_true, if_false] at h
                  rcases except_bind_error_cases _ _ _ h with h4 | ⟨b4, _, h⟩
                  · exact tempDelta_error_eq _ _ _ _ h4
                  · cases b4 <;> simp at h
                · simp at h
            · simp at h
        · simp at h

/-- Under the loop invariant, the reporting condition never raises the
`time.mktime(None)` TypeError: its only possible error is the detector's
`None - float` TypeError. -/
theorem report_guard_error_eq (st : HvacState) (now : PyDT) (h : PostHistory)
    (hinv : history_inv h) (e : PyErr)
    (he : report_guard st now h = .error e) : e = .typeErrorNoneSub := by
  unfold report_guard at he
  cases hdi : difference_is_reportable st h.last_sent_state with
  | error e2 =>
    rw [hdi] at he
    simp only [Except.error.injEq] at he
    rw [← he]
    exact diff_error_eq st h.last_sent_state e2 hdi
  | ok b =>
    rw [hdi] at he
    cases b
    · rcases hlpt : h.last_post_time with _ | lpt
      · have hsent : h.last_sent_state = none := hinv.mp hlpt
        rw [hsent] at hdi
        simp [difference_is_reportable] at hdi
      · rw [hlpt] at he
        simp at he
    · simp at he

/-- On a raising posting branch the error is the id-collision TypeError or
the POST-rejection RuntimeError, never the `mktime(None)` TypeError. -/
theorem loop_post_step_inl_err (st : HvacState) (now : PyDT) (status : Nat)
    (h h2 : PostHistory) (e : PyErr)
    (hh : loop_post_step st now status h = .inl (e, h2)) :
    e = .typeErrorTupleConcat ∨ e = .reportRejected status := by
  simp only [loop_post_step, allocate_id] at hh
  by_cases hc : some now = h.last_post_time
  · simp [hc] at hh
    exact Or.inl hh.1.symm
  · by_cases hs : status ≠ 200 ∧ status ≠ 201
    · simp [hc, hs] at hh
      exact Or.inr hh.1.symm
    · simp [hc, hs] at hh

/-- A completed posting branch leaves both `last_sent_state` and
`last_post_time` set, so the loop invariant holds afterwards. -/
theorem loop_post_step_inr_inv (st : HvacState) (now : PyDT) (status : Nat)
    (h h2 : PostHistory)
    (hh : loop_post_step st now status h = .inr h2) : history_inv h2 := by
  simp only [loop_post_step, allocate_id] at hh
  by_cases hc : some now = h.last_post_time
  · simp [hc] at hh
  · by_cases hs : status ≠ 200 ∧ status ≠ 201
    · simp [hc, hs] at hh
    · simp [hc, hs] at hh
      rw [← hh]
      simp [history_inv]

/-- Under the invariant, one loop iteration never raises the
`mktime(None)` TypeError. -/
theorem loop_step_inl_err (st : HvacState) (now : PyDT) (status : Nat)
    (h h2 : PostHistory) (hinv : history_inv h) (e : PyErr)
    (hh : loop_step st now status h = .inl (e, h2)) :
    e ≠ .typeErrorMktimeNone := by
  unfold loop_step at hh
  cases hg : report_guard st now h with
  | error e2 =>
    rw [hg] at hh
    simp only [Sum.inl.injEq, Prod.mk.injEq] at hh
    rw [← hh.1]
    have := report_guard_error_eq st now h hinv e2 hg
    rw [this]
    intro hx
    exact PyErr.noConfusion hx
  | ok b =>
    rw [hg] at hh
    cases b
    · simp at hh
    · simp only at hh
      rcases loop_post_step_inl_err st now status h h2 e hh with h1 | h1 <;>
        · rw [h1]; intro hx; exact PyErr.noConfusion hx

/-- One completed loop iteration preserves the invariant. -/
theorem loop_step_inr_inv (st : HvacState) (now : PyDT) (status : Nat)
    (h h2 : PostHistory) (hinv : history_inv h)
    (hh : loop_step st now status h = .inr h2) : history_inv h2 := by
  unfold loop_step at hh
  cases hg : report_guard st now h with
  | error e2 =>
    rw [hg] at hh
    simp at hh
  | ok b =>
    rw [hg] at hh
    cases b
    · simp only [Sum.inr.injEq] at hh
      rw [← hh]
      exact hinv
    · exact loop_post_step_inr_inv st now status h h2 hh

/-- The run-level invariant: starting from an invariant-satisfying history,
the loop never raises the `mktime(None)` TypeError and every completed
prefix of iterations re-establishes the invariant. -/
theorem loop_run_inv (inputs : List LoopInput) (h0 : PostHistory)
    (hinv : history_inv h0) :
    (∀ h2, loop_run inputs h0 ≠ .inl (.typeErrorMktimeNone, h2)) ∧
    (∀ h2, loop_run inputs h0 = .inr h2 → history_inv h2) := by
  induction inputs generalizing h0 with
  | nil =>
    constructor
    · intro h2 hh
      simp [loop_run] at hh
    · intro h2 hh
      simp only [loop_run, Sum.inr.injEq] at hh
      rw [← hh]
      exact hinv
  | cons i rest ih =>
    constructor
    · intro h2 hh
      simp only [loop_run] at hh
      cases hs : loop_step i.st i.now i.status h0 with
      | inl e =>
        rw [hs] at hh
        simp only [Sum.inl.injEq] at hh
        subst hh
        exact loop_step_inl_err i.st i.now i.status h0 h2 hinv _ hs rfl
      | inr hmid =>
        rw [hs] at hh
        exact (ih hmid (loop_step_inr_inv i.st i.now i.status h0 hmid hinv hs)).1
          h2 hh
    · intro h2 hh
      simp only [loop_run] at hh
      cases hs : loop_step i.st i.now i.status h0 with
      | inl e =>
        rw [hs] at hh
        simp at hh
      | inr hmid =>
        rw [hs] at hh
        exact (ih hmid (loop_step_inr_inv i.st i.now i.status h0 hmid hinv hs)).2
          h2 hh

/-- C10: starting from the initial loop state (`last_sent_state = None`,
`last_post_time = None`), in every reachable state `last_post_time` is
`None` exactly when `last_sent_state` is `None`, and the heartbeat
comparison is never applied to an absent `last_post_time` (the
`mktime(None)` TypeError is unreachable): when the previous snapshot is
`None` the detector short-circuits to `True` before the heartbeat check. -/
theorem C10_heartbeat_never_sees_absent_post_time (inputs : List LoopInput) :
    (∀ h2, loop_run inputs initial_history ≠ .inl (.typeErrorMktimeNone, h2)) ∧
    (∀ h2, loop_run inputs initial_history = .inr h2 →
      (h2.last_post_time = none ↔ h2.last_sent_state = none)) :=
  loop_run_inv inputs initial_history (by simp [history_inv, initial_history])

/-- C10, witness: a two-iteration run — a first report at 20:51:40 with
status 201, then a quiet iteration one second later — completes with both
fields set. -/
theorem C10_heartbeat_witness :
    loop_run
      [⟨⟨some 1, none, none, none, none⟩, jan12t, 201⟩,
       ⟨⟨some 1, none, none, none, none⟩, jan12t1, 201⟩]
      initial_history =
      .inr ⟨some ⟨some 1, none, none, none, none⟩, some jan12t, 0⟩ ∧
    ((⟨some ⟨some 1, none, none, none, none⟩, some jan12t, 0⟩ : PostHistory).last_post_time = none ↔
      (⟨some ⟨some 1, none, none, none, none⟩, some jan12t, 0⟩ : PostHistory).last_sent_state = none) :=
  ⟨rfl,
   (C10_heartbeat_never_sees_absent_post_time
      [⟨⟨some 1, none, none, none, none⟩, jan12t, 201⟩,
       ⟨⟨some 1, none, none, none, none⟩, jan12t1, 201⟩]).2
      ⟨some ⟨some 1, none, none, none, none⟩, some jan12t, 0⟩ rfl⟩

/-- C9 amended: `last_sent_state` is set to the attempted snapshot at the
start of every posting branch, before the POST; both on success and on any
failure inside the branch (id-allocation TypeError or a non-200/201
status), the loop variables hold the attempted snapshot, not the one from
before the attempt. -/
theorem C9_amended_last_sent_is_attempted_snapshot (st : HvacState)
    (now : PyDT) (status : Nat) (h : PostHistory) :
    (match loop_post_step st now status h with
     | .inl e => e.2.last_sent_state
     | .inr h2 => h2.last_sent_state) = some st := by
  simp only [loop_post_step, allocate_id]
  by_cases hc : some now = h.last_post_time
  · simp [hc]
  · by_cases hs : status ≠ 200 ∧ status ≠ 201
    · simp [hc, hs]
    · simp [hc, hs]

/-! ### C8: the date parser fails exactly as the spec says -/

/-- Enumeration of the whitespace class. -/
theorem space_chars (c : Char) (h : isSpaceChar c = true) :
    c = ' ' ∨ c = '\t' ∨ c = '\n' ∨ c = '\x0b' ∨ c = '\x0c' ∨ c = '\r' := by
  simp [isSpaceChar] at h
  tauto

/-- Whitespace is not in the `\w` class. -/
theorem space_not_word (c : Char) (h : isSpaceChar c = true) :
    isWordChar c = false := by
  rcases space_chars c h with h1 | h1 | h1 | h1 | h1 | h1 <;> subst h1 <;> decide

/-- Whitespace is not in the `\d` class. -/
theorem space_not_digit (c : Char) (h : isSpaceChar c = true) :
    isDigitChar c = false := by
  rcases space_chars c h with h1 | h1 | h1 | h1 | h1 | h1 <;> subst h1 <;> decide

/-- A digit is not whitespace. -/
theorem digit_not_space (c : Char) (h : isDigitChar c = true) :
    isSpaceChar c = false := by
  cases hx : isSpaceChar c
  · rfl
  · rw [space_not_digit c hx] at h
    exact Bool.noConfusion h

/-- A word character is not whitespace. -/
theorem word_not_space (c : Char) (h : isWordChar c = true) :
    isSpaceChar c = false := by
  cases hx : isSpaceChar c
  · rfl
  · rw [space_not_word c hx] at h
    exact Bool.noConfusion h

/-- Every adjacent pair of `datePat` has disjoint start classes, so greedy
matching never eats into the next token's segment. -/
theorem chainOK_datePat : chainOK datePat := by
  have plit : ∀ (c : Char) (t : Tok), pairOK (.litc c) t := by
    intro c t x hx
    rfl
  have pwcomma : pairOK .word (.litc ',') := by
    intro c hc
    have : c = ',' := by simpa [clsHead] using hc
    subst this
    decide
  have pdcolon : pairOK .digit (.litc ':') := by
    intro c hc
    have : c = ':' := by simpa [clsHead] using hc
    subst this
    decide
  have psd : pairOK .space .digit := fun c hc =>
    digit_not_space c (by simpa [clsHead, Tok.cls] using hc)
  have pds : pairOK .digit .space := fun c hc =>
    space_not_digit c (by simpa [clsHead, Tok.cls] using hc)
  have psw : pairOK .space .word := fun c hc =>
    word_not_space c (by simpa [clsHead, Tok.cls] using hc)
  have pws : pairOK .word .space := fun c hc =>
    space_not_word c (by simpa [clsHead, Tok.cls] using hc)
  simp only [datePat, chainOK]
  exact ⟨pwcomma, plit _ _, psd, pds, psw, pws, psd, pds, psd, pdcolon,
    plit _ _, pdcolon, plit _ _, pds, psw, trivial⟩

/-- A successful literal step consumes exactly its character. -/
theorem lit_sound (c : Char) (l rest : List Char) (h : lit c l = some rest) :
    l = c :: rest := by
  cases l with
  | nil => simp [lit] at h
  | cons x t =>
    simp only [lit] at h
    by_cases hx : x = c
    · subst hx
      simp at h
      rw [h]
    · simp [hx] at h

/-- A successful greedy class step splits the input into a nonempty
all-in-class run and the rest. -/
theorem token_sound (p : Char → Bool) (l : List Char)
    (pr : List Char × List Char) (h : token p l = some pr) :
    l = pr.1 ++ pr.2 ∧ pr.1 ≠ [] ∧ ∀ c ∈ pr.1, p c = true := by
  unfold token at h
  by_cases he : (l.takeWhile p).isEmpty = true
  · simp [he] at h
  · simp [he] at h
    rw [← h]
    refine ⟨(List.takeWhile_append_dropWhile p l).symm, ?_, ?_⟩
    · intro hx
      have hx2 : List.takeWhile p l = [] := hx
      rw [hx2] at he
      exact he rfl
    · intro c hc
      exact List.mem_takeWhile_imp hc

/-- Greedy `takeWhile`/`dropWhile` over a run followed by a breaking
character recover exactly the run and the remainder. -/
theorem takeWhile_run_append (p : Char → Bool) (seg rest : List Char)
    (hbreak : ∀ c, rest.head? = some c → p c = false) :
    (∀ c ∈ seg, p c = true) →
      (seg ++ rest).takeWhile p = seg ∧ (seg ++ rest).dropWhile p = rest := by
  induction seg with
  | nil =>
    intro _
    cases rest with
    | nil => exact ⟨rfl, rfl⟩
    | cons c t =>
      have hc := hbreak c rfl
      constructor
      · simp [List.takeWhile_cons, hc]
      · simp [List.dropWhile_cons, hc]
  | cons x xs ih =>
    intro hall
    have hx : p x = true := hall x (List.mem_cons_self x xs)
    have ih2 := ih fun c hc => hall c (List.mem_cons_of_mem x hc)
    constructor
    · simp [List.takeWhile_cons, hx, ih2.1]
    · simp [List.dropWhile_cons, hx, ih2.2]

/-- A greedy class step over a run followed by a breaking character
consumes exactly the run. -/
theorem token_break (p : Char → Bool) (seg rest : List Char) (hne : seg ≠ [])
    (hall : ∀ c ∈ seg, p c = true)
    (hbreak : ∀ c, rest.head? = some c → p c = false) :
    token p (seg ++ rest) = some (seg, rest) := by
  obtain ⟨h1, h2⟩ := takeWhile_run_append p seg rest hbreak hall
  unfold token
  rw [h1, h2]
  simp [hne]

/-- A greedy class step succeeds whenever the input starts inside the
class. -/
theorem token_succeeds (p : Char → Bool) (c : Char) (t : List Char)
    (hc : p c = true) : ∃ pr, token p (c :: t) = some pr := by
  refine ⟨((c :: t).takeWhile p, (c :: t).dropWhile p), ?_⟩
  simp [token, List.takeWhile_cons, List.dropWhile_cons, hc]

/-- Soundness: a successful greedy match exhibits the declarative shape. -/
theorem matchToks_sound (ts : List Tok) (l : List Char)
    (r : List (List Char) × List Char) (h : matchToks ts l = some r) :
    ShapeFrom ts l := by
  induction ts generalizing l r with
  | nil => trivial
  | cons t ts ih =>
    cases t with
    | litc c =>
      simp only [matchToks] at h
      rcases hopt : lit c l with _ | rest
      · rw [hopt] at h
        simp at h
      · rw [hopt] at h
        simp only [Option.some_bind] at h
        exact ⟨[c], rest, by rw [lit_sound c l rest hopt]; rfl, rfl,
          ih rest r h⟩
    | word =>
      simp only [matchToks] at h
      rcases hopt : token Tok.word.cls l with _ | pr
      · rw [hopt] at h
        simp at h
      · rw [hopt] at h
        simp only [Option.some_bind] at h
        rcases hq : matchToks ts pr.2 with _ | q
        · rw [hq] at h
          simp at h
        · obtain ⟨hl, hne, hall⟩ := token_sound _ _ _ hopt
          exact ⟨pr.1, pr.2, hl, ⟨hne, hall⟩, ih pr.2 q hq⟩
    | space =>
      simp only [matchToks] at h
      rcases hopt : token Tok.space.cls l with _ | pr
      · rw [hopt] at h
        simp at h
      · rw [hopt] at h
        simp only [Option.some_bind] at h
        rcases hq : matchToks ts pr.2 with _ | q
        · rw [hq] at h
          simp at h
        · obtain ⟨hl, hne, hall⟩ := token_sound _ _ _ hopt
          exact ⟨pr.1, pr.2, hl, ⟨hne, hall⟩, ih pr.2 q hq⟩
    | digit =>
      simp only [matchToks] at h
      rcases hopt : token Tok.digit.cls l with _ | pr
      · rw [hopt] at h
        simp at h
      · rw [hopt] at h
        simp only [Option.some_bind] at h
        rcases hq : matchToks ts pr.2 with _ | q
        · rw [hq] at h
          simp at h
        · obtain ⟨hl, hne, hall⟩ := token_sound _ _ _ hopt
          exact ⟨pr.1, pr.2, hl, ⟨hne, hall⟩, ih pr.2 q hq⟩

/-- The tail of a `chainOK` sequence is `chainOK`. -/
theorem chainOK_tail (t : Tok) (ts : List Tok) (h : chainOK (t :: ts)) :
    chainOK ts := by
  cases ts with
  | nil => trivial
  | cons t2 ts2 => exact h.2

/-- A declaratively matching input begins with a character that can start
the first token. -/
theorem shape_head (t : Tok) (ts : List Tok) (l : List Char)
    (h : ShapeFrom (t :: ts) l) :
    ∃ c rest, l = c :: rest ∧ clsHead t c = true := by
  obtain ⟨seg, rest, hl, hm, _⟩ := h
  cases t with
  | litc c =>
    have hseg : seg = [c] := hm
    subst hseg
    exact ⟨c, rest, hl, by simp [clsHead]⟩
  | word =>
    obtain ⟨hne, hall⟩ := hm
    cases seg with
    | nil => exact absurd rfl hne
    | cons c st =>
      exact ⟨c, st ++ rest, by rw [hl]; rfl,
        hall c (List.mem_cons_self c st)⟩
  | space =>
    obtain ⟨hne, hall⟩ := hm
    cases seg with
    | nil => exact absurd rfl hne
    | cons c st =>
      exact ⟨c, st ++ rest, by rw [hl]; rfl,
        hall c (List.mem_cons_self c st)⟩
  | digit =>
    obtain ⟨hne, hall⟩ := hm
    cases seg with
    | nil => exact absurd rfl hne
    | cons c st =>
      exact ⟨c, st ++ rest, by rw [hl]; rfl,
        hall c (List.mem_cons_self c st)⟩

/-- Completeness: on a `chainOK` token sequence, every declaratively
matching input is accepted by the greedy matcher. -/
theorem matchToks_complete (ts : List Tok) (l : List Char)
    (hchain : chainOK ts) (hshape : ShapeFrom ts l) :
    ∃ r, matchToks ts l = some r := by
  induction ts generalizing l with
  | nil => exact ⟨([], l), rfl⟩
  | cons t ts ih =>
    obtain ⟨seg, rest, hl, hm, hsh⟩ := hshape
    subst hl
    cases t with
    | litc c =>
      have hseg : seg = [c] := hm
      subst hseg
      obtain ⟨r, hr⟩ := ih rest (chainOK_tail _ _ hchain) hsh
      exact ⟨r, by simp [matchToks, lit, hr]⟩
    | word =>
      obtain ⟨hne, hall⟩ := hm
      cases ts with
      | nil =>
        cases seg with
        | nil => exact absurd rfl hne
        | cons c st =>
          obtain ⟨pr, hpr⟩ :=
            token_succeeds Tok.word.cls c (st ++ rest)
              (hall c (List.mem_cons_self c st))
          exact ⟨([pr.1], pr.2), by simp [matchToks, hpr]⟩
      | cons t2 ts2 =>
        obtain ⟨c2, rr, hrest, hc2⟩ := shape_head t2 ts2 rest hsh
        have hbreak : ∀ c, rest.head? = some c → Tok.word.cls c = false := by
          intro c hc
          rw [hrest] at hc
          simp only [List.head?_cons, Option.some.injEq] at hc
          rw [← hc]
          exact hchain.1 c2 hc2
        have htok := token_break Tok.word.cls seg rest hne hall hbreak
        obtain ⟨r, hr⟩ := ih rest (chainOK_tail _ _ hchain) hsh
        exact ⟨(seg :: r.1, r.2), by simp [matchToks, htok, hr]⟩
    | space =>
      obtain ⟨hne, hall⟩ := hm
      cases ts with
      | nil =>
        cases seg with
        | nil => exact absurd rfl hne
        | cons c st =>
          obtain ⟨pr, hpr⟩ :=
            token_succeeds Tok.space.cls c (st ++ rest)
              (hall c (List.mem_cons_self c st))
          exact ⟨([pr.1], pr.2), by simp [matchToks, hpr]⟩
      | cons t2 ts2 =>
        obtain ⟨c2, rr, hrest, hc2⟩ := shape_head t2 ts2 rest hsh
        have hbreak : ∀ c, rest.head? = some c → Tok.space.cls c = false := by
          intro c hc
          rw [hrest] at hc
          simp only [List.head?_cons, Option.some.injEq] at hc
          rw [← hc]
          exact hchain.1 c2 hc2
        have htok := token_break Tok.space.cls seg rest hne hall hbreak
        obtain ⟨r, hr⟩ := ih rest (chainOK_tail _ _ hchain) hsh
        exact ⟨(seg :: r.1, r.2), by simp [matchToks, htok, hr]⟩
    | digit =>
      obtain ⟨hne, hall⟩ := hm
      cases ts with
      | nil =>
        cases seg with
        | nil => exact absurd rfl hne
        | cons c st =>
          obtain ⟨pr, hpr⟩ :=
            token_succeeds Tok.digit.cls c (st ++ rest)
              (hall c (List.mem_cons_self c st))
          exact ⟨([pr.1], pr.2), by simp [matchToks, hpr]⟩
      | cons t2 ts2 =>
        obtain ⟨c2, rr, hrest, hc2⟩ := shape_head t2 ts2 rest hsh
        have hbreak : ∀ c, rest.head? = some c → Tok.digit.cls c = false := by
          intro c hc
          rw [hrest] at hc
          simp only [List.head?_cons, Option.some.injEq] at hc
          rw [← hc]
          exact hchain.1 c2 hc2
        have htok := token_break Tok.digit.cls seg rest hne hall hbreak
        obtain ⟨r, hr⟩ := ih rest (chainOK_tail _ _ hchain) hsh
        exact ⟨(seg :: r.1, r.2), by simp [matchToks, htok, hr]⟩

/-- A successful greedy match captures one run per class token. -/
theorem matchToks_length (ts : List Tok) (l : List Char)
    (r : List (List Char) × List Char) (h : matchToks ts l = some r) :
    r.1.length = numRuns ts := by
  induction ts generalizing l r with
  | nil =>
    simp only [matchToks, Option.some.injEq] at h
    rw [← h]
    rfl
  | cons t ts ih =>
    cases t with
    | litc c =>
      simp only [matchToks] at h
      rcases hopt : lit c l with _ | rest
      · rw [hopt] at h
        simp at h
      · rw [hopt] at h
        simp only [Option.some_bind] at h
        exact ih rest r h
    | word =>
      simp only [matchToks] at h
      rcases hopt : token Tok.word.cls l with _ | pr
      · rw [hopt] at h
        simp at h
      · rw [hopt] at h
        simp only [Option.some_bind] at h
        rcases hq : matchToks ts pr.2 with _ | q
        · rw [hq] at h
          simp at h
        · rw [hq] at h
          simp only [Option.map_some', Option.some.injEq] at h
          rw [← h]
          simp [numRuns, ih pr.2 q hq]
    | space =>
      simp only [matchToks] at h
      rcases hopt : token Tok.space.cls l with _ | pr
      · rw [hopt] at h
        simp at h
      · rw [hopt] at h
        simp only [Option.some_bind] at h
        rcases hq : matchToks ts pr.2 with _ | q
        · rw [hq] at h
          simp at h
        · rw [hq] at h
          simp only [Option.map_some', Option.some.injEq] at h
          rw [← h]
          simp [numRuns, ih pr.2 q hq]
    | digit =>
      simp only [matchToks] at h
      rcases hopt : token Tok.digit.cls l with _ | pr
      · rw [hopt] at h
        simp at h
      · rw [hopt] at h
        simp only [Option.some_bind] at h
        rcases hq : matchToks ts pr.2 with _ | q
        · rw [hq] at h
          simp at h
        · rw [hq] at h
          simp only [Option.map_some', Option.some.injEq] at h
          rw [← h]
          simp [numRuns, ih pr.2 q hq]

/-- Group extraction succeeds on every accepted input: `datePat` has
exactly thirteen class runs, so the thirteen-run pattern in `matchFrom`
always matches. -/
theorem matchFrom_of_matchToks (l : List Char)
    (r : List (List Char) × List Char) (h : matchToks datePat l = some r) :
    ∃ g, matchFrom l = some g := by
  have hlen : r.1.length = 13 := matchToks_length datePat l r h
  obtain ⟨runs, rest⟩ := r
  simp only at hlen
  rcases runs with _ | ⟨x1, runs⟩; · simp at hlen
  rcases runs with _ | ⟨x2, runs⟩; · simp at hlen
  rcases runs with _ | ⟨x3, runs⟩; · simp at hlen
  rcases runs with _ | ⟨x4, runs⟩; · simp at hlen
  rcases runs with _ | ⟨x5, runs⟩; · simp at hlen
  rcases runs with _ | ⟨x6, runs⟩; · simp at hlen
  rcases runs with _ | ⟨x7, runs⟩; · simp at hlen
  rcases runs with _ | ⟨x8, runs⟩; · simp at hlen
  rcases runs with _ | ⟨x9, runs⟩; · simp at hlen
  rcases runs with _ | ⟨x10, runs⟩; · simp at hlen
  rcases runs with _ | ⟨x11, runs⟩; · simp at hlen
  rcases runs with _ | ⟨x12, runs⟩; · simp at hlen
  rcases runs with _ | ⟨x13, runs⟩; · simp at hlen
  have hnil : runs = [] := by
    simpa using hlen
  subst hnil
  exact ⟨⟨x1, x3, x5, x7, x9, x10, x11, x13⟩, by simp [matchFrom, h]⟩

/-- A successful group extraction comes from a successful greedy match. -/
theorem matchFrom_inv (l : List Char) (g : DateGroups)
    (h : matchFrom l = some g) : ∃ r, matchToks datePat l = some r := by
  unfold matchFrom at h
  split at h
  · next heq => exact ⟨_, heq⟩
  · simp at h

/-- Soundness of the search: a found match means some position of the
input starts a declarative match of the pattern. -/
theorem re_search_sound (l : List Char) (g : DateGroups)
    (h : re_search l = some g) :
    ∃ pre rest, l = pre ++ rest ∧ ShapeFrom datePat rest := by
  induction l with
  | nil =>
    refine ⟨[], [], rfl, ?_⟩
    obtain ⟨r, hr⟩ := matchFrom_inv [] g h
    exact matchToks_sound datePat [] r hr
  | cons c t ih =>
    unfold re_search at h
    rcases hmf : matchFrom (c :: t) with _ | g2
    · rw [hmf] at h
      obtain ⟨pre, rest, hpr, hsh⟩ := ih h
      exact ⟨c :: pre, rest, by rw [hpr]; rfl, hsh⟩
    · rw [hmf] at h
      obtain ⟨r, hr⟩ := matchFrom_inv _ _ hmf
      exact ⟨[], c :: t, rfl, matchToks_sound datePat (c :: t) r hr⟩

/-- Completeness of the search: if some position of the input starts a
declarative match of the pattern, the search succeeds. -/
theorem re_search_complete (l pre rest : List Char) (hl : l = pre ++ rest)
    (hsh : ShapeFrom datePat rest) : ∃ g, re_search l = some g := by
  subst hl
  induction pre with
  | nil =>
    obtain ⟨r, hr⟩ := matchToks_complete datePat rest chainOK_datePat hsh
    obtain ⟨g, hg⟩ := matchFrom_of_matchToks rest r hr
    cases rest with
    | nil => exact ⟨g, hg⟩
    | cons c t => exact ⟨g, by simp [re_search, hg]⟩
  | cons c pre ih =>
    obtain ⟨g, hg⟩ := ih
    rcases hmf : matchFrom (c :: (pre ++ rest)) with _ | g2
    · exact ⟨g, by simp [re_search, hmf, hg]⟩
    · exact ⟨g2, by simp [re_search, hmf]⟩

/-- C8: `parse_http_date` fails with `DateFormatError` exactly when the
input does not contain a match of the pattern
`"<Dow>, <DD> <Mon> <YYYY> <HH>:<MM>:<SS> <TZ>"` (the `_COUCHDB_DATE_RE`
search, characterised declaratively by `MatchesHttpDate`); fails with
`UnknownMonthError` exactly when the search succeeds but the captured
month token is not one of the twelve canonical abbreviations in `MON`; and
on `"Fri, 12 Jan 2024 20:51:40 GMT"` succeeds with year 2024, month 1,
day 12, hour 20, minute 51, second 40. -/
theorem C8_parse_http_date_error_modes :
    (∀ s : String,
      parse_http_date s = .error .DateFormatError ↔ ¬ MatchesHttpDate s) ∧
    (∀ s : String,
      parse_http_date s = .error .UnknownMonthError ↔
        ∃ g, re_search s.data = some g ∧
          MON.lookup (String.mk g.mon) = none) ∧
    parse_http_date "Fri, 12 Jan 2024 20:51:40 GMT" =
      .ok ⟨2024, 1, 12, 20, 51, 40, 0, "GMT", 0⟩ := by
  refine ⟨?_, ?_, rfl⟩
  · intro s
    rcases hs : re_search s.data with _ | g
    · have hparse : parse_http_date s = .error .DateFormatError := by
        unfold parse_http_date
        simp only [hs]
      constructor
      · intro _ hm
        obtain ⟨pre, rest, hpr, hsh⟩ := hm
        obtain ⟨g2, hg2⟩ := re_search_complete s.data pre rest hpr hsh
        rw [hs] at hg2
        exact Option.noConfusion hg2
      · intro _
        exact hparse
    · have hmatch : MatchesHttpDate s := re_search_sound s.data g hs
      have hparse : parse_http_date s ≠ .error .DateFormatError := by
        unfold parse_http_date
        simp only [hs]
        rcases hl : MON.lookup (String.mk g.mon) with _ | m
        · simp only [hl]
          intro hx
          injection hx with hx2
          exact DateError.noConfusion hx2
        · simp only [hl]
          intro hx
          exact Except.noConfusion hx
      constructor
      · intro hx
        exact absurd hx hparse
      · intro hm
        exact absurd hmatch hm
  · intro s
    rcases hs : re_search s.data with _ | g
    · have hparse : parse_http_date s = .error .DateFormatError := by
        unfold parse_http_date
        simp only [hs]
      constructor
      · intro hx
        rw [hparse] at hx
        injection hx with hx2
        exact DateError.noConfusion hx2
      · rintro ⟨g2, hg2, _⟩
        exact Option.noConfusion hg2
    · rcases hl : MON.lookup (String.mk g.mon) with _ | m
      · have hparse : parse_http_date s = .error .UnknownMonthError := by
          unfold parse_http_date
          simp only [hs, hl]
        constructor
        · intro _
          exact ⟨g, rfl, hl⟩
        · intro _
          exact hparse
      · have hparse : parse_http_date s ≠ .error .UnknownMonthError := by
          unfold parse_http_date
          simp only [hs, hl]
          intro hx
          exact Except.noConfusion hx
        constructor
        · intro hx
          exact absurd hx hparse
        · rintro ⟨g2, hg2, hl2⟩
          injection hg2 with hg3
          rw [← hg3] at hl2
          rw [hl] at hl2
          exact Option.noConfusion hl2

end Hvac
